import Mathlib

/-
Shallow embedding of the numeric core of the webgl-water Go port:
the math3d package (vectors, quaternions, 4x4 matrices), the assets
mesh generator, and the state reducer with its orbital camera.

Floating-point (float32) arithmetic is modelled by exact arithmetic:
the value types are parametrised over a field and instantiated at ℚ
for the claims that use only field operations and comparisons, and at
ℝ for the claims that need square roots (Length / Normalize / LookAt /
Slerp).  Go slices become Lean lists, fixed arrays become functions out
of Fin, and the int32 mouse coordinates become ℤ.
-/

/-- 3D vector, mirroring math3d.Vec3 (fields X, Y, Z). -/
structure Vec3 (α : Type) where
  X : α
  Y : α
  Z : α
deriving DecidableEq

/-- 4D vector, mirroring math3d.Vec4 (fields X, Y, Z, W). -/
structure Vec4 (α : Type) where
  X : α
  Y : α
  Z : α
  W : α
deriving DecidableEq

variable {α : Type} [Field α]

/-- Vec3.Add from vector.go: componentwise sum. -/
def Vec3.Add (v other : Vec3 α) : Vec3 α :=
  ⟨v.X + other.X, v.Y + other.Y, v.Z + other.Z⟩

/-- Vec3.Sub from vector.go: componentwise difference. -/
def Vec3.Sub (v other : Vec3 α) : Vec3 α :=
  ⟨v.X - other.X, v.Y - other.Y, v.Z - other.Z⟩

/-- Vec3.Scale from vector.go: componentwise scalar multiple. -/
def Vec3.Scale (v : Vec3 α) (s : α) : Vec3 α :=
  ⟨v.X * s, v.Y * s, v.Z * s⟩

/-- Vec3.Dot from vector.go. -/
def Vec3.Dot (v other : Vec3 α) : α :=
  v.X * other.X + v.Y * other.Y + v.Z * other.Z

/-- Vec3.Cross from vector.go (right-handed cross product). -/
def Vec3.Cross (v other : Vec3 α) : Vec3 α :=
  ⟨v.Y * other.Z - v.Z * other.Y,
   v.Z * other.X - v.X * other.Z,
   v.X * other.Y - v.Y * other.X⟩

/-- Vec3.Extend from vector.go: append a W component. -/
def Vec3.Extend (v : Vec3 α) (w : α) : Vec4 α :=
  ⟨v.X, v.Y, v.Z, w⟩

/-- The constant math3d.Vec3Up = (0, 1, 0). -/
def Vec3Up : Vec3 α := ⟨0, 1, 0⟩

/-- Vec4.ToVec3 from vector.go: drop the W component. -/
def Vec4.ToVec3 (v : Vec4 α) : Vec3 α :=
  ⟨v.X, v.Y, v.Z⟩

/-- Vec4.ToVec3Homogeneous from vector.go: divide by W unless W is zero,
in which case the components are returned unchanged. -/
def Vec4.ToVec3Homogeneous [DecidableEq α] (v : Vec4 α) : Vec3 α :=
  if v.W = 0 then ⟨v.X, v.Y, v.Z⟩
  else ⟨v.X / v.W, v.Y / v.W, v.Z / v.W⟩

/-- 4x4 matrix in column-major storage, mirroring math3d.Mat4
([16]float32 with Get(row, col) = m[col*4+row]). -/
structure Mat4 (α : Type) where
  els : Fin 16 → α

/-- Mat4 built from an explicit 16-element column-major array literal,
as the Go code writes Mat4{a0, ..., a15}. -/
def Mat4.ofList (l : List α) : Mat4 α :=
  ⟨fun i => l.getD i 0⟩

/-- Mat4.Get from matrix.go: Get(row, col) = m[col*4+row]. -/
def Mat4.Get (m : Mat4 α) (row col : Fin 4) : α :=
  m.els ⟨col.val * 4 + row.val, by omega⟩

/-- A matrix given entrywise through the Set(row, col, v) write pattern of
matrix.go, i.e. entry col*4+row of the storage holds the value at
(row, col). -/
def Mat4.ofGet (f : Fin 4 → Fin 4 → α) : Mat4 α :=
  ⟨fun i => f ⟨i.val % 4, by omega⟩ ⟨i.val / 4, by omega⟩⟩

/-- Mat4.Zero from matrix.go (also the Mat4 zero value Mat4 braces-empty). -/
def Mat4.Zero : Mat4 α := ⟨fun _ => 0⟩

/-- Mat4.Identity from matrix.go. -/
def Mat4.Identity : Mat4 α :=
  Mat4.ofList [1, 0, 0, 0, 0, 1, 0, 0, 0, 0, 1, 0, 0, 0, 0, 1]

/-- Mat4.MultiplyVec4 from matrix.go, written with the raw storage
indices exactly as the source does. -/
def Mat4.MultiplyVec4 (m : Mat4 α) (v : Vec4 α) : Vec4 α :=
  ⟨m.els 0 * v.X + m.els 4 * v.Y + m.els 8 * v.Z + m.els 12 * v.W,
   m.els 1 * v.X + m.els 5 * v.Y + m.els 9 * v.Z + m.els 13 * v.W,
   m.els 2 * v.X + m.els 6 * v.Y + m.els 10 * v.Z + m.els 14 * v.W,
   m.els 3 * v.X + m.els 7 * v.Y + m.els 11 * v.Z + m.els 15 * v.W⟩

/-- Mat4.MultiplyVec3 from matrix.go: extend with W=1, multiply,
then homogeneous divide. -/
def Mat4.MultiplyVec3 [DecidableEq α] (m : Mat4 α) (v : Vec3 α) : Vec3 α :=
  (m.MultiplyVec4 (v.Extend 1)).ToVec3Homogeneous

/-- Mat4.MultiplyVec3Point from matrix.go (same as MultiplyVec3). -/
def Mat4.MultiplyVec3Point [DecidableEq α] (m : Mat4 α) (v : Vec3 α) : Vec3 α :=
  m.MultiplyVec3 v

/-- One column index of the 4x8 augmented Gauss-Jordan matrix. -/
def finCol (i : Fin 4) : Fin 8 := ⟨i.val, by omega⟩

/-- The pivot search of Mat4.Inverse: starting from maxRow = i, scan the
rows k = i+1..3 and move to k whenever its entry in column i is strictly
larger in absolute value. -/
def pivotRow (aug : Fin 4 → Fin 8 → ℚ) (i : Fin 4) : Fin 4 :=
  (List.finRange 4).foldl
    (fun maxRow k =>
      if i.val < k.val ∧ |aug k (finCol i)| > |aug maxRow (finCol i)| then k
      else maxRow) i

/-- The simultaneous row swap aug[i], aug[maxRow] = aug[maxRow], aug[i]
of Mat4.Inverse. -/
def swapRows (aug : Fin 4 → Fin 8 → ℚ) (a b : Fin 4) : Fin 4 → Fin 8 → ℚ :=
  fun r c => if r = a then aug b c else if r = b then aug a c else aug r c

/-- One iteration of the forward-elimination loop of Mat4.Inverse:
partial pivoting, singularity check, pivot-row scaling, and elimination
of column i from every other row.  Returns none when the pivot is zero
(the source returns the zero matrix and a false flag). -/
def gaussStep (aug : Fin 4 → Fin 8 → ℚ) (i : Fin 4) :
    Option (Fin 4 → Fin 8 → ℚ) :=
  let maxRow := pivotRow aug i
  let a1 := swapRows aug i maxRow
  if a1 i (finCol i) = 0 then none
  else
    let pivot := a1 i (finCol i)
    let a2 := fun (r : Fin 4) (c : Fin 8) => if r = i then a1 r c / pivot else a1 r c
    some (fun r c => if r = i then a2 r c else a2 r c - a2 r (finCol i) * a2 i c)

/-- The initial 4x8 augmented matrix of Mat4.Inverse: the input on the
left, the identity on the right. -/
def augmented (m : Mat4 ℚ) : Fin 4 → Fin 8 → ℚ := fun r c =>
  if h : c.val < 4 then m.Get r ⟨c.val, h⟩
  else if c.val = r.val + 4 then 1 else 0

/-- Mat4.Inverse from matrix.go: Gauss-Jordan elimination with partial
pivoting on the augmented matrix with the identity on the right; on a zero
pivot it returns the zero matrix together with a false success flag,
otherwise the right half together with true. -/
def Mat4.Inverse (m : Mat4 ℚ) : Mat4 ℚ × Bool :=
  match gaussStep (augmented m) 0 with
  | none => (Mat4.Zero, false)
  | some a1 =>
    match gaussStep a1 1 with
    | none => (Mat4.Zero, false)
    | some a2 =>
      match gaussStep a2 2 with
      | none => (Mat4.Zero, false)
      | some a3 =>
        match gaussStep a3 3 with
        | none => (Mat4.Zero, false)
        | some a4 =>
          (Mat4.ofGet (fun r c => a4 r ⟨c.val + 4, by omega⟩), true)

/-- Mesh from assets.go: flat vertex/normal/texCoord arrays, a triangle
index array, and the cached vertex and triangle counts. -/
structure Mesh (α : Type) where
  Name : String
  Vertices : List α
  Normals : List α
  TexCoords : List α
  Indices : List ℕ
  VertexCount : ℕ
  TriangleCount : ℕ

/-- The index-buffer construction shared by CreateWaterMesh and
CreateTerrainMesh: per grid cell, triangles (topLeft, bottomLeft, topRight)
and (topRight, bottomLeft, bottomRight), written sequentially. -/
def gridIndices (segments : ℕ) : List ℕ :=
  (List.range segments).flatMap fun i =>
    (List.range segments).flatMap fun j =>
      let topLeft := i * (segments + 1) + j
      let topRight := topLeft + 1
      let bottomLeft := (i + 1) * (segments + 1) + j
      let bottomRight := bottomLeft + 1
      [topLeft, bottomLeft, topRight, topRight, bottomLeft, bottomRight]

/-- The texture-coordinate construction shared by both mesh builders:
(j/segments, i/segments) per vertex, written sequentially. -/
def gridTexCoords (segments : ℕ) : List α :=
  (List.range (segments + 1)).flatMap fun i =>
    (List.range (segments + 1)).flatMap fun j =>
      [(j : α) / (segments : α), (i : α) / (segments : α)]

/-- Assets.CreateWaterMesh from assets.go: a flat (y = 0) grid of
(segments+1) x (segments+1) vertices spanning a size x size square centred
at the origin, all normals (0,1,0), and two triangles per cell. -/
def CreateWaterMesh (size : α) (segments : ℕ) : Mesh α :=
  let vertexCount := (segments + 1) * (segments + 1)
  let triangleCount := segments * segments * 2
  let step := size / (segments : α)
  let halfSize := size * 0.5
  let vertices : List α :=
    (List.range (segments + 1)).flatMap fun i =>
      (List.range (segments + 1)).flatMap fun j =>
        [(j : α) * step - halfSize, 0, (i : α) * step - halfSize]
  let normals : List α :=
    (List.range (segments + 1)).flatMap fun _ =>
      (List.range (segments + 1)).flatMap fun _ => [0, 1, 0]
  { Name := "water_plane"
    Vertices := vertices
    Normals := normals
    TexCoords := gridTexCoords segments
    Indices := gridIndices segments
    VertexCount := vertexCount
    TriangleCount := triangleCount }

/-- Mouse from state.go: last position (int32 coordinates, modelled by ℤ)
and the pressed flag. -/
structure Mouse where
  x : ℤ
  y : ℤ
  pressed : Bool
deriving DecidableEq

/-- NewMouse from state.go. -/
def NewMouse : Mouse := ⟨0, 0, false⟩

/-- Water from state.go: the plain water-property struct. -/
structure Water where
  Reflectivity : ℚ
  FresnelStrength : ℚ
  WaveSpeed : ℚ
  UseReflection : Bool
  UseRefraction : Bool
deriving DecidableEq

/-- NewWater from state.go. -/
def NewWater : Water := ⟨0.6, 2.0, 0.03, true, true⟩

/-- Camera from state.go: stored position (only rewritten by
updatePosition, which State.Update never calls), target, up, the orbit
parameters, and the clamp bounds. -/
structure Camera where
  position : Vec3 ℚ
  target : Vec3 ℚ
  up : Vec3 ℚ
  distance : ℚ
  yaw : ℚ
  pitch : ℚ
  minDistance : ℚ
  maxDistance : ℚ
  minPitch : ℚ
  maxPitch : ℚ
deriving DecidableEq

/-- NewCamera from state.go: distance 15 in [5, 50], pitch 0.3 in
[-1.5, 1.5]. -/
def NewCamera : Camera :=
  { position := ⟨0, 5, 10⟩
    target := ⟨0, 0, 0⟩
    up := Vec3Up
    distance := 15
    yaw := 0
    pitch := 0.3
    minDistance := 5
    maxDistance := 50
    minPitch := -1.5
    maxPitch := 1.5 }

/-- Camera.OrbitLeftRight from state.go: unbounded yaw accumulation. -/
def Camera.OrbitLeftRight (c : Camera) (delta : ℚ) : Camera :=
  { c with yaw := c.yaw + delta }

/-- Camera.OrbitUpDown from state.go: add to pitch, then clamp to
[minPitch, maxPitch] with two sequential comparisons. -/
def Camera.OrbitUpDown (c : Camera) (delta : ℚ) : Camera :=
  let p0 := c.pitch + delta
  let p1 := if p0 < c.minPitch then c.minPitch else p0
  let p2 := if p1 > c.maxPitch then c.maxPitch else p1
  { c with pitch := p2 }

/-- Camera.Zoom from state.go: add to distance, then clamp to
[minDistance, maxDistance] with two sequential comparisons. -/
def Camera.Zoom (c : Camera) (delta : ℚ) : Camera :=
  let d0 := c.distance + delta
  let d1 := if d0 < c.minDistance then c.minDistance else d0
  let d2 := if d1 > c.maxDistance then c.maxDistance else d1
  { c with distance := d2 }

/-- The camera clamp invariant of the state reducer: the bounds are the
NewCamera constants and distance and pitch lie within them. -/
def CameraBoundsOK (c : Camera) : Prop :=
  c.minDistance = 5 ∧ c.maxDistance = 50 ∧ c.minPitch = -1.5 ∧ c.maxPitch = 1.5 ∧
  5 ≤ c.distance ∧ c.distance ≤ 50 ∧ -1.5 ≤ c.pitch ∧ c.pitch ≤ 1.5

/-- The closed message union consumed by State.Update (one constructor per
Go message struct of state.go). -/
inductive Message where
  | AdvanceClock (DeltaTime : ℚ)
  | MouseDown (X Y : ℤ)
  | MouseUp
  | MouseMove (X Y : ℤ)
  | Zoom (Delta : ℚ)
  | SetReflectivity (Value : ℚ)
  | SetFresnel (Value : ℚ)
  | SetWaveSpeed (Value : ℚ)
  | UseReflection (Value : Bool)
  | UseRefraction (Value : Bool)
  | ShowScenery (Value : Bool)

/-- State from state.go: clock, camera, mouse, water and the scenery
flag (the lock and the wall-clock lastTime field are concurrency and
real-time plumbing outside this embedding). -/
structure State where
  clock : ℚ
  camera : Camera
  mouse : Mouse
  water : Water
  scenery : Bool
deriving DecidableEq

/-- NewState from state.go. -/
def NewState : State :=
  { clock := 0
    camera := NewCamera
    mouse := NewMouse
    water := NewWater
    scenery := true }

/-- State.Update from state.go: the reducer switch over the message type,
one atomic step per message. -/
def State.Update (s : State) (msg : Message) : State :=
  match msg with
  | .AdvanceClock dt => { s with clock := s.clock + dt }
  | .MouseDown X Y =>
      { s with mouse := { s.mouse with pressed := true, x := X, y := Y } }
  | .MouseUp => { s with mouse := { s.mouse with pressed := false } }
  | .MouseMove X Y =>
      if s.mouse.pressed = false then s
      else
        let xDelta : ℚ := ((s.mouse.x - X : ℤ) : ℚ)
        let yDelta : ℚ := ((Y - s.mouse.y : ℤ) : ℚ)
        { s with
          camera := (s.camera.OrbitLeftRight (xDelta / 50)).OrbitUpDown (yDelta / 50)
          mouse := { s.mouse with x := X, y := Y } }
  | .Zoom delta => { s with camera := s.camera.Zoom delta }
  | .SetReflectivity v => { s with water := { s.water with Reflectivity := v } }
  | .SetFresnel v => { s with water := { s.water with FresnelStrength := v } }
  | .SetWaveSpeed v => { s with water := { s.water with WaveSpeed := v } }
  | .UseReflection v => { s with water := { s.water with UseReflection := v } }
  | .UseRefraction v => { s with water := { s.water with UseRefraction := v } }
  | .ShowScenery v => { s with scenery := v }

/-- Vec3.Length from vector.go (float sqrt modelled by Real.sqrt). -/
noncomputable def Vec3.Length (v : Vec3 ℝ) : ℝ :=
  Real.sqrt (v.X * v.X + v.Y * v.Y + v.Z * v.Z)

/-- Vec3.Normalize from vector.go: the zero-length vector maps to the
zero value, otherwise each component is divided by the length. -/
noncomputable def Vec3.Normalize (v : Vec3 ℝ) : Vec3 ℝ :=
  if v.Length = 0 then ⟨0, 0, 0⟩
  else ⟨v.X / v.Length, v.Y / v.Length, v.Z / v.Length⟩

/-- Quaternion from quaternion.go, W the scalar part, over ℝ. -/
structure Quat where
  X : ℝ
  Y : ℝ
  Z : ℝ
  W : ℝ

/-- QuatIdentity from quaternion.go. -/
def QuatIdentity : Quat := ⟨0, 0, 0, 1⟩

/-- Quat.Add from quaternion.go. -/
def Quat.Add (q other : Quat) : Quat :=
  ⟨q.X + other.X, q.Y + other.Y, q.Z + other.Z, q.W + other.W⟩

/-- Quat.Sub from quaternion.go. -/
def Quat.Sub (q other : Quat) : Quat :=
  ⟨q.X - other.X, q.Y - other.Y, q.Z - other.Z, q.W - other.W⟩

/-- Quat.Scale from quaternion.go. -/
def Quat.Scale (q : Quat) (s : ℝ) : Quat :=
  ⟨q.X * s, q.Y * s, q.Z * s, q.W * s⟩

/-- Quat.Dot from quaternion.go. -/
def Quat.Dot (q other : Quat) : ℝ :=
  q.X * other.X + q.Y * other.Y + q.Z * other.Z + q.W * other.W

/-- Quat.Length from quaternion.go. -/
noncomputable def Quat.Length (q : Quat) : ℝ :=
  Real.sqrt (q.X * q.X + q.Y * q.Y + q.Z * q.Z + q.W * q.W)

/-- Quat.LengthSquared from quaternion.go. -/
def Quat.LengthSquared (q : Quat) : ℝ :=
  q.X * q.X + q.Y * q.Y + q.Z * q.Z + q.W * q.W

/-- Quat.Normalize from quaternion.go: the zero-length quaternion maps to
the identity quaternion, otherwise the value is scaled by 1/length. -/
noncomputable def Quat.Normalize (q : Quat) : Quat :=
  if q.Length = 0 then QuatIdentity
  else q.Scale (1 / q.Length)

/-- Quat.Slerp from quaternion.go: normalize both inputs, flip the second
when the dot product is negative, fall back to normalized linear
interpolation when the dot product exceeds 0.9995, and otherwise walk the
arc with arccos/cos/sin. -/
noncomputable def Quat.Slerp (q other : Quat) (t : ℝ) : Quat :=
  let q1 := q.Normalize
  let q2a := other.Normalize
  let dotA := q1.Dot q2a
  let q2 := if dotA < 0 then q2a.Scale (-1) else q2a
  let dot := if dotA < 0 then -dotA else dotA
  if dot > 0.9995 then
    (q1.Add ((q2.Sub q1).Scale t)).Normalize
  else
    let theta0 := Real.arccos dot
    let theta := theta0 * t
    let q2b := (q2.Sub (q1.Scale dot)).Normalize
    (q1.Scale (Real.cos theta)).Add (q2b.Scale (Real.sin theta))

/-- LookAt from matrix.go: right-handed view basis with the negated
forward vector in the third column and the dotted translation row. -/
noncomputable def LookAt (eye target up : Vec3 ℝ) : Mat4 ℝ :=
  let forward := (target.Sub eye).Normalize
  let right := (forward.Cross up).Normalize
  let realUp := right.Cross forward
  let forward2 := forward.Scale (-1)
  Mat4.ofList
    [right.X, realUp.X, forward2.X, 0,
     right.Y, realUp.Y, forward2.Y, 0,
     right.Z, realUp.Z, forward2.Z, 0,
     -(right.Dot eye), -(realUp.Dot eye), -(forward2.Dot eye), 1]

/-- The vertex read pattern of calculateNormals: the Vec3 stored at flat
offset k*3 of a vertex array. -/
def vecAt (vs : List ℝ) (k : ℕ) : Vec3 ℝ :=
  ⟨vs.getD (k * 3) 0, vs.getD (k * 3 + 1) 0, vs.getD (k * 3 + 2) 0⟩

/-- The accumulation write pattern of calculateNormals: add a face normal
into the three normal slots of vertex k. -/
def addAt (ns : List ℝ) (k : ℕ) (n : Vec3 ℝ) : List ℝ :=
  ((ns.set (k * 3) (ns.getD (k * 3) 0 + n.X)).set (k * 3 + 1)
      (ns.getD (k * 3 + 1) 0 + n.Y)).set (k * 3 + 2)
    (ns.getD (k * 3 + 2) 0 + n.Z)

/-- The triangles of an index buffer, read three indices at a time as the
loop for i := 0; i < len(indices); i += 3 does. -/
def triangleTriples : List ℕ → List (ℕ × ℕ × ℕ)
  | a :: b :: c :: rest => (a, b, c) :: triangleTriples rest
  | _ => []

/-- The final pass of calculateNormals: normalize every 3-float chunk in
place. -/
noncomputable def normalizeChunks : List ℝ → List ℝ
  | x :: y :: z :: rest =>
      let n := (⟨x, y, z⟩ : Vec3 ℝ).Normalize
      n.X :: n.Y :: n.Z :: normalizeChunks rest
  | l => l

/-- Assets.calculateNormals from assets.go: zero-initialize the normal
array, accumulate the unit face normal of every indexed triangle into its
three vertex slots, then normalize every accumulated vector. -/
noncomputable def calculateNormals (vertices : List ℝ) (indices : List ℕ)
    (normals : List ℝ) : List ℝ :=
  let zeroed := List.replicate normals.length (0 : ℝ)
  let accumulated :=
    (triangleTriples indices).foldl
      (fun ns t =>
        let v1 := vecAt vertices t.1
        let v2 := vecAt vertices t.2.1
        let v3 := vecAt vertices t.2.2
        let edge1 := v2.Sub v1
        let edge2 := v3.Sub v1
        let normal := (edge1.Cross edge2).Normalize
        addAt (addAt (addAt ns t.1 normal) t.2.1 normal) t.2.2 normal)
      zeroed
  normalizeChunks accumulated

/-- Assets.CreateTerrainMesh from assets.go: the height-varied grid.  The
source calls calculateNormals on the freshly allocated, still all-zero
index array and only afterwards fills the index buffer, so the normals in
the returned mesh come from the zero-filled index array. -/
noncomputable def CreateTerrainMesh (size : ℝ) (segments : ℕ)
    (heightScale : ℝ) : Mesh ℝ :=
  let vertexCount := (segments + 1) * (segments + 1)
  let triangleCount := segments * segments * 2
  let step := size / (segments : ℝ)
  let halfSize := size * 0.5
  let vertices : List ℝ :=
    (List.range (segments + 1)).flatMap fun i =>
      (List.range (segments + 1)).flatMap fun j =>
        let height := heightScale * (((i + j : ℕ) : ℝ) / ((segments * 2 : ℕ) : ℝ))
        [(j : ℝ) * step - halfSize, -height, (i : ℝ) * step - halfSize]
  let indicesAtCall := List.replicate (triangleCount * 3) (0 : ℕ)
  let normals :=
    calculateNormals vertices indicesAtCall
      (List.replicate (vertexCount * 3) (0 : ℝ))
  { Name := "terrain"
    Vertices := vertices
    Normals := normals
    TexCoords := gridTexCoords segments
    Indices := gridIndices segments
    VertexCount := vertexCount
    TriangleCount := triangleCount }

theorem gridIndices_length (segments : ℕ) :
    (gridIndices segments).length = segments * (segments * 6) := by
  simp [gridIndices, List.length_flatMap, Function.comp_def]

/-- Claim C3: with the default camera (distance 15, pitch 0.3),
Zoom(-100) clamps the distance to exactly 5, Zoom(+100) clamps it to
exactly 50, and OrbitUpDown(+10) clamps the pitch to exactly 1.5. -/
theorem newCamera_zoom_orbit_clamps :
    (NewCamera.Zoom (-100)).distance = 5 ∧
    (NewCamera.Zoom 100).distance = 50 ∧
    (NewCamera.OrbitUpDown 10).pitch = 1.5 := by
  refine ⟨?_, ?_, ?_⟩ <;>
    norm_num [NewCamera, Camera.Zoom, Camera.OrbitUpDown]

/-- Claim C9: the homogeneous Vec4-to-Vec3 conversion returns the
components unchanged when W = 0 (no division takes place), and divides
every component by W when W is nonzero. -/
theorem toVec3Homogeneous_guarded (v : Vec4 ℚ) :
    (v.W = 0 → v.ToVec3Homogeneous = ⟨v.X, v.Y, v.Z⟩) ∧
    (v.W ≠ 0 → v.ToVec3Homogeneous = ⟨v.X / v.W, v.Y / v.W, v.Z / v.W⟩) := by
  constructor <;> intro h <;> simp [Vec4.ToVec3Homogeneous, h]

/-- Witness for C9: both branches evaluated at concrete vectors. -/
theorem toVec3Homogeneous_guarded_witness :
    ((⟨1, 2, 3, 0⟩ : Vec4 ℚ).ToVec3Homogeneous = ⟨1, 2, 3⟩) ∧
    ((⟨2, 4, 6, 2⟩ : Vec4 ℚ).ToVec3Homogeneous = ⟨1, 2, 3⟩) := by
  constructor
  · exact (toVec3Homogeneous_guarded ⟨1, 2, 3, 0⟩).1 rfl
  · have h := (toVec3Homogeneous_guarded ⟨2, 4, 6, 2⟩).2 (by norm_num)
    rw [h]
    norm_num [Vec3.mk.injEq]

/-- Claim C4: for every size and every segments at least 1, the water
grid mesh has (segments+1)^2 vertices, 2*segments^2 triangles, and an
index array of length three times the triangle count. -/
theorem water_mesh_counts (size : ℚ) (segments : ℕ) (h : 1 ≤ segments) :
    (CreateWaterMesh size segments).VertexCount = (segments + 1) ^ 2 ∧
    (CreateWaterMesh size segments).TriangleCount = 2 * segments ^ 2 ∧
    (CreateWaterMesh size segments).Indices.length =
      3 * (CreateWaterMesh size segments).TriangleCount := by
  refine ⟨?_, ?_, ?_⟩ <;>
    simp [CreateWaterMesh, gridIndices_length] <;> ring

/-- Witness for C4: size 20 and 2 segments give 9 vertices, 8 triangles
and 24 indices. -/
theorem water_mesh_counts_witness :
    (CreateWaterMesh (20 : ℚ) 2).VertexCount = 9 ∧
    (CreateWaterMesh (20 : ℚ) 2).TriangleCount = 8 ∧
    (CreateWaterMesh (20 : ℚ) 2).Indices.length = 24 := by
  obtain ⟨h1, h2, h3⟩ := water_mesh_counts 20 2 (by norm_num)
  refine ⟨?_, ?_, ?_⟩
  · rw [h1]; norm_num
  · rw [h2]; norm_num
  · rw [h3, h2]; norm_num

/-- Claim C2: a mouse-move message leaves the whole state unchanged when
the mouse is not pressed; when pressed it orbits the camera by
(oldX - newX)/50 in yaw and (newY - oldY)/50 in pitch and then stores the
new mouse position. -/
theorem mouse_move_reducer (s : State) (X Y : ℤ) :
    (s.mouse.pressed = false → s.Update (.MouseMove X Y) = s) ∧
    (s.mouse.pressed = true →
      s.Update (.MouseMove X Y) =
        { s with
          camera :=
            (s.camera.OrbitLeftRight (((s.mouse.x - X : ℤ) : ℚ) / 50)).OrbitUpDown
              (((Y - s.mouse.y : ℤ) : ℚ) / 50)
          mouse := { s.mouse with x := X, y := Y } }) := by
  constructor <;> intro h <;> simp [State.Update, h]

/-- Witness for C2: both branches evaluated at concrete states. -/
theorem mouse_move_reducer_witness :
    NewState.Update (.MouseMove 3 4) = NewState ∧
    ((NewState.Update (.MouseDown 1 2)).Update (.MouseMove 5 6)).camera.yaw = -2 / 25 ∧
    ((NewState.Update (.MouseDown 1 2)).Update (.MouseMove 5 6)).camera.pitch = 19 / 50 ∧
    ((NewState.Update (.MouseDown 1 2)).Update (.MouseMove 5 6)).mouse.x = 5 ∧
    ((NewState.Update (.MouseDown 1 2)).Update (.MouseMove 5 6)).mouse.y = 6 := by
  have h1 := (mouse_move_reducer NewState 3 4).1 rfl
  have h2 := (mouse_move_reducer (NewState.Update (.MouseDown 1 2)) 5 6).2 rfl
  refine ⟨h1, ?_, ?_, ?_, ?_⟩ <;> rw [h2] <;>
    norm_num [NewState, NewCamera, NewMouse, State.Update,
      Camera.OrbitLeftRight, Camera.OrbitUpDown]

theorem orbitUpDown_preserves (c : Camera) (delta : ℚ) (h : CameraBoundsOK c) :
    CameraBoundsOK (c.OrbitUpDown delta) := by
  obtain ⟨h1, h2, h3, h4, h5, h6, h7, h8⟩ := h
  refine ⟨h1, h2, h3, h4, h5, h6, ?_, ?_⟩ <;>
    simp only [Camera.OrbitUpDown, h3, h4] <;> split_ifs <;> linarith

theorem zoom_preserves (c : Camera) (delta : ℚ) (h : CameraBoundsOK c) :
    CameraBoundsOK (c.Zoom delta) := by
  obtain ⟨h1, h2, h3, h4, h5, h6, h7, h8⟩ := h
  refine ⟨h1, h2, h3, h4, ?_, ?_, h7, h8⟩ <;>
    simp only [Camera.Zoom, h1, h2] <;> split_ifs <;> linarith

theorem orbitLeftRight_preserves (c : Camera) (delta : ℚ) (h : CameraBoundsOK c) :
    CameraBoundsOK (c.OrbitLeftRight delta) := h

theorem update_preserves_bounds (s : State) (m : Message)
    (h : CameraBoundsOK s.camera) : CameraBoundsOK (s.Update m).camera := by
  cases m with
  | MouseMove X Y =>
      by_cases hp : s.mouse.pressed = false
      · simp [State.Update, hp, h]
      · simp only [State.Update, hp, if_false]
        exact orbitUpDown_preserves _ _ (orbitLeftRight_preserves _ _ h)
  | Zoom delta => exact zoom_preserves _ _ h
  | AdvanceClock dt => exact h
  | MouseDown X Y => exact h
  | MouseUp => exact h
  | SetReflectivity v => exact h
  | SetFresnel v => exact h
  | SetWaveSpeed v => exact h
  | UseReflection v => exact h
  | UseRefraction v => exact h
  | ShowScenery v => exact h

theorem foldl_preserves_bounds (msgs : List Message) (s : State)
    (h : CameraBoundsOK s.camera) :
    CameraBoundsOK ((msgs.foldl State.Update s).camera) := by
  induction msgs generalizing s with
  | nil => exact h
  | cons m rest ih => exact ih _ (update_preserves_bounds s m h)

/-- Claim C10: for every finite message sequence applied with
State.Update starting from NewState, the camera distance stays within
[5, 50] and the pitch within [-1.5, 1.5]. -/
theorem camera_bounds_invariant (msgs : List Message) :
    5 ≤ (msgs.foldl State.Update NewState).camera.distance ∧
    (msgs.foldl State.Update NewState).camera.distance ≤ 50 ∧
    -1.5 ≤ (msgs.foldl State.Update NewState).camera.pitch ∧
    (msgs.foldl State.Update NewState).camera.pitch ≤ 1.5 := by
  have h0 : CameraBoundsOK NewState.camera := by
    refine ⟨rfl, rfl, rfl, rfl, ?_, ?_, ?_, ?_⟩ <;> norm_num [NewState, NewCamera]
  have h := foldl_preserves_bounds msgs NewState h0
  exact ⟨h.2.2.2.2.1, h.2.2.2.2.2.1, h.2.2.2.2.2.2.1, h.2.2.2.2.2.2.2⟩

theorem pivotRow_zero_col (aug : Fin 4 → Fin 8 → ℚ) (i : Fin 4)
    (h : ∀ k, aug k (finCol i) = 0) : pivotRow aug i = i := by
  have hfr : List.finRange 4 = [0, 1, 2, 3] := rfl
  simp [pivotRow, hfr, h]

theorem gaussStep_zero_col (aug : Fin 4 → Fin 8 → ℚ) (i : Fin 4)
    (h : ∀ k, aug k (finCol i) = 0) : gaussStep aug i = none := by
  have hp := pivotRow_zero_col aug i h
  simp [gaussStep, hp, swapRows, h]

/-- Claim C5: Mat4.Inverse signals the singular case through its boolean
success flag: whenever the first pivot column is entirely zero (as with
the all-zero matrix) the flag comes back false. -/
theorem inverse_zero_pivot_fails (m : Mat4 ℚ) (h : ∀ r : Fin 4, m.Get r 0 = 0) :
    m.Inverse.2 = false := by
  have h0 : ∀ k : Fin 4, augmented m k (finCol 0) = 0 := by
    intro k
    simpa [augmented, finCol] using h k
  have hnone := gaussStep_zero_col (augmented m) 0 h0
  simp [Mat4.Inverse, hnone]

/-- Witness for C5: the all-zero matrix has an all-zero first column and
its inversion fails. -/
theorem inverse_zero_pivot_fails_witness :
    (∀ r : Fin 4, (Mat4.Zero : Mat4 ℚ).Get r 0 = 0) ∧
    (Mat4.Zero : Mat4 ℚ).Inverse.2 = false := by
  have h : ∀ r : Fin 4, (Mat4.Zero : Mat4 ℚ).Get r 0 = 0 := fun r => rfl
  exact ⟨h, inverse_zero_pivot_fails Mat4.Zero h⟩

theorem Vec3.normalize_zero_vec : (⟨0, 0, 0⟩ : Vec3 ℝ).Normalize = ⟨0, 0, 0⟩ := by
  simp [Vec3.Normalize, Vec3.Length]

theorem Vec3.sumsq_pos (v : Vec3 ℝ) (hv : v ≠ ⟨0, 0, 0⟩) :
    0 < v.X * v.X + v.Y * v.Y + v.Z * v.Z := by
  obtain ⟨x, y, z⟩ := v
  simp only [ne_eq, Vec3.mk.injEq] at hv
  by_contra hle
  push_neg at hle
  have hx : x = 0 := by
    nlinarith [mul_self_nonneg x, mul_self_nonneg y, mul_self_nonneg z]
  have hy : y = 0 := by
    nlinarith [mul_self_nonneg x, mul_self_nonneg y, mul_self_nonneg z]
  have hz : z = 0 := by
    nlinarith [mul_self_nonneg x, mul_self_nonneg y, mul_self_nonneg z]
  exact hv ⟨hx, hy, hz⟩

theorem Vec3.normalize_of_ne (v : Vec3 ℝ) (h : v.Length ≠ 0) :
    v.Normalize = ⟨v.X / v.Length, v.Y / v.Length, v.Z / v.Length⟩ := by
  unfold Vec3.Normalize
  rw [if_neg h]

theorem Vec3.length_mk (a b c : ℝ) :
    (⟨a, b, c⟩ : Vec3 ℝ).Length = Real.sqrt (a * a + b * b + c * c) := rfl

theorem Vec3.length_normalize (v : Vec3 ℝ) (hv : v ≠ ⟨0, 0, 0⟩) :
    v.Normalize.Length = 1 := by
  have hS := Vec3.sumsq_pos v hv
  have hLpos : 0 < v.Length := Real.sqrt_pos.mpr hS
  have hLL : v.Length * v.Length = v.X * v.X + v.Y * v.Y + v.Z * v.Z :=
    Real.mul_self_sqrt hS.le
  rw [Vec3.normalize_of_ne v (ne_of_gt hLpos), Vec3.length_mk]
  rw [show v.X / v.Length * (v.X / v.Length) + v.Y / v.Length * (v.Y / v.Length) +
        v.Z / v.Length * (v.Z / v.Length) =
      (v.X * v.X + v.Y * v.Y + v.Z * v.Z) / (v.Length * v.Length) by ring]
  rw [hLL, div_self (ne_of_gt hS), Real.sqrt_one]

/-- Claim C6: normalizing any non-zero vector yields length within 1e-5
of 1 (in the exact real semantics the length is exactly 1), normalizing
the zero vector returns the zero vector, and normalizing the zero
quaternion returns the identity quaternion: silent degenerate results,
not errors. -/
theorem normalize_silent_degenerate :
    (∀ v : Vec3 ℝ, v ≠ ⟨0, 0, 0⟩ → |v.Normalize.Length - 1| ≤ 1e-5) ∧
    ((⟨0, 0, 0⟩ : Vec3 ℝ).Normalize = ⟨0, 0, 0⟩) ∧
    ((⟨0, 0, 0, 0⟩ : Quat).Normalize = QuatIdentity) := by
  refine ⟨fun v hv => ?_, Vec3.normalize_zero_vec, ?_⟩
  · rw [Vec3.length_normalize v hv]
    norm_num
  · simp [Quat.Normalize, Quat.Length]

/-- Witness for C6: the non-zero-vector branch evaluated at (3, 4, 0). -/
theorem normalize_silent_degenerate_witness :
    ((⟨3, 4, 0⟩ : Vec3 ℝ) ≠ ⟨0, 0, 0⟩) ∧
    |(⟨3, 4, 0⟩ : Vec3 ℝ).Normalize.Length - 1| ≤ 1e-5 := by
  have hne : (⟨3, 4, 0⟩ : Vec3 ℝ) ≠ ⟨0, 0, 0⟩ := by
    norm_num [Vec3.mk.injEq]
  exact ⟨hne, normalize_silent_degenerate.1 ⟨3, 4, 0⟩ hne⟩

/-- Claim C8: the view matrix of lookAt(eye=(0,0,5), target=(0,0,0),
up=(0,1,0)) maps the eye point, taken as a homogeneous point with w = 1,
to the view-space origin. -/
theorem lookAt_maps_eye_to_origin :
    (LookAt ⟨0, 0, 5⟩ ⟨0, 0, 0⟩ ⟨0, 1, 0⟩).MultiplyVec3Point ⟨0, 0, 5⟩ = ⟨0, 0, 0⟩ := by
  have h25 : Real.sqrt 25 = 5 := by
    rw [show (25 : ℝ) = 5 ^ 2 by norm_num, Real.sqrt_sq (by norm_num : (0 : ℝ) ≤ 5)]
  have hsub : ((⟨0, 0, 0⟩ : Vec3 ℝ).Sub ⟨0, 0, 5⟩) = ⟨0, 0, -5⟩ := by
    norm_num [Vec3.Sub, Vec3.mk.injEq]
  have hlen5 : (⟨0, 0, -5⟩ : Vec3 ℝ).Length = 5 := by
    rw [Vec3.length_mk, show (0 * 0 + 0 * 0 + (-5 : ℝ) * (-5)) = 25 by norm_num, h25]
  have hfwd : (⟨0, 0, -5⟩ : Vec3 ℝ).Normalize = ⟨0, 0, -1⟩ := by
    rw [Vec3.normalize_of_ne _ (by rw [hlen5]; norm_num), hlen5]
    norm_num [Vec3.mk.injEq]
  have hcross : (⟨0, 0, -1⟩ : Vec3 ℝ).Cross ⟨0, 1, 0⟩ = ⟨1, 0, 0⟩ := by
    norm_num [Vec3.Cross, Vec3.mk.injEq]
  have hlen1 : (⟨1, 0, 0⟩ : Vec3 ℝ).Length = 1 := by
    rw [Vec3.length_mk, show ((1 : ℝ) * 1 + 0 * 0 + 0 * 0) = 1 by norm_num,
      Real.sqrt_one]
  have hright : (⟨1, 0, 0⟩ : Vec3 ℝ).Normalize = ⟨1, 0, 0⟩ := by
    rw [Vec3.normalize_of_ne _ (by rw [hlen1]; norm_num), hlen1]
    norm_num [Vec3.mk.injEq]
  have hup : (⟨1, 0, 0⟩ : Vec3 ℝ).Cross ⟨0, 0, -1⟩ = ⟨0, 1, 0⟩ := by
    norm_num [Vec3.Cross, Vec3.mk.injEq]
  simp only [LookAt]
  rw [hsub, hfwd, hcross, hright, hup]
  norm_num [Vec3.Scale, Vec3.Dot, Mat4.MultiplyVec3Point, Mat4.MultiplyVec3,
    Mat4.MultiplyVec4, Vec3.Extend, Mat4.ofList, Vec4.ToVec3Homogeneous,
    Vec3.mk.injEq, List.getD,
    show ((8 : Fin 16) : ℕ) = 8 from rfl, show ((9 : Fin 16) : ℕ) = 9 from rfl,
    show ((10 : Fin 16) : ℕ) = 10 from rfl, show ((11 : Fin 16) : ℕ) = 11 from rfl,
    show ((12 : Fin 16) : ℕ) = 12 from rfl, show ((13 : Fin 16) : ℕ) = 13 from rfl,
    show ((14 : Fin 16) : ℕ) = 14 from rfl, show ((15 : Fin 16) : ℕ) = 15 from rfl]

theorem Quat.length_mk_quat (a b c d : ℝ) :
    (⟨a, b, c, d⟩ : Quat).Length = Real.sqrt (a * a + b * b + c * c + d * d) := rfl

theorem Quat.normalize_of_len_zero (q : Quat) (h : q.Length = 0) :
    q.Normalize = QuatIdentity := by
  unfold Quat.Normalize
  rw [if_pos h]

theorem Quat.normalize_of_len_ne (q : Quat) (h : q.Length ≠ 0) :
    q.Normalize = q.Scale (1 / q.Length) := by
  unfold Quat.Normalize
  rw [if_neg h]

theorem Quat.sumsq_pos_of_len_ne (q : Quat) (h : q.Length ≠ 0) :
    0 < q.X * q.X + q.Y * q.Y + q.Z * q.Z + q.W * q.W := by
  have h0 : (0 : ℝ) ≤ q.X * q.X + q.Y * q.Y + q.Z * q.Z + q.W * q.W := by
    nlinarith [mul_self_nonneg q.X, mul_self_nonneg q.Y, mul_self_nonneg q.Z,
      mul_self_nonneg q.W]
  rcases h0.lt_or_eq with hpos | heq
  · exact hpos
  · exact absurd (by
      rw [show q.Length =
          Real.sqrt (q.X * q.X + q.Y * q.Y + q.Z * q.Z + q.W * q.W) from rfl,
        ← heq, Real.sqrt_zero]) h

theorem Quat.dot_self (q : Quat) : q.Dot q = q.Length * q.Length := by
  have h0 : (0 : ℝ) ≤ q.X * q.X + q.Y * q.Y + q.Z * q.Z + q.W * q.W := by
    nlinarith [mul_self_nonneg q.X, mul_self_nonneg q.Y, mul_self_nonneg q.Z,
      mul_self_nonneg q.W]
  rw [show q.Length =
      Real.sqrt (q.X * q.X + q.Y * q.Y + q.Z * q.Z + q.W * q.W) from rfl,
    Real.mul_self_sqrt h0]
  rfl

theorem Quat.length_normalize_quat (q : Quat) : q.Normalize.Length = 1 := by
  by_cases h : q.Length = 0
  · rw [Quat.normalize_of_len_zero q h]
    rw [show QuatIdentity.Length = Real.sqrt (0 * 0 + 0 * 0 + 0 * 0 + 1 * 1) from rfl,
      show (0 * 0 + 0 * 0 + 0 * 0 + 1 * 1 : ℝ) = 1 by norm_num, Real.sqrt_one]
  · have hS := Quat.sumsq_pos_of_len_ne q h
    have hLL : q.Length * q.Length = q.X * q.X + q.Y * q.Y + q.Z * q.Z + q.W * q.W :=
      Real.mul_self_sqrt hS.le
    rw [Quat.normalize_of_len_ne q h,
      show q.Scale (1 / q.Length) =
        (⟨q.X * (1 / q.Length), q.Y * (1 / q.Length), q.Z * (1 / q.Length),
          q.W * (1 / q.Length)⟩ : Quat) from rfl,
      Quat.length_mk_quat]
    rw [show q.X * (1 / q.Length) * (q.X * (1 / q.Length)) +
          q.Y * (1 / q.Length) * (q.Y * (1 / q.Length)) +
          q.Z * (1 / q.Length) * (q.Z * (1 / q.Length)) +
          q.W * (1 / q.Length) * (q.W * (1 / q.Length)) =
        (q.X * q.X + q.Y * q.Y + q.Z * q.Z + q.W * q.W) / (q.Length * q.Length)
        by ring]
    rw [hLL, div_self (ne_of_gt hS), Real.sqrt_one]

/-- Claim C7 (amended): slerp of a quaternion with itself is constant in t
and equal to the normalized input; for unit quaternions this is the input
itself, but not for non-unit inputs. -/
theorem slerp_self (q : Quat) (t : ℝ) : q.Slerp q t = q.Normalize := by
  have hlen := Quat.length_normalize_quat q
  have hdot : q.Normalize.Dot q.Normalize = 1 := by
    rw [Quat.dot_self, hlen, mul_one]
  have hidem : q.Normalize.Normalize = q.Normalize := by
    rw [Quat.normalize_of_len_ne _ (by rw [hlen]; norm_num), hlen]
    simp [Quat.Scale]
  have hzero : (q.Normalize.Sub q.Normalize).Scale t = ⟨0, 0, 0, 0⟩ := by
    simp [Quat.Sub, Quat.Scale]
  have haddz : q.Normalize.Add ⟨0, 0, 0, 0⟩ = q.Normalize := by
    simp [Quat.Add]
  simp only [Quat.Slerp, hdot]
  rw [if_neg (by norm_num : ¬((1 : ℝ) < 0)), if_neg (by norm_num : ¬((1 : ℝ) < 0)),
    if_pos (by norm_num : (1 : ℝ) > 0.9995)]
  rw [hzero, haddz, hidem]

/-- Counterexample for C7 as stated: slerp of the non-unit quaternion
(0,0,0,2) with itself returns its normalization (0,0,0,1), not the
quaternion itself. -/
theorem slerp_self_nonunit_counterexample :
    Quat.Slerp ⟨0, 0, 0, 2⟩ ⟨0, 0, 0, 2⟩ (1 / 2) ≠ ⟨0, 0, 0, 2⟩ := by
  have h4 : Real.sqrt 4 = 2 := by
    rw [show (4 : ℝ) = 2 ^ 2 by norm_num, Real.sqrt_sq (by norm_num : (0 : ℝ) ≤ 2)]
  have hlen : (⟨0, 0, 0, 2⟩ : Quat).Length = 2 := by
    rw [Quat.length_mk_quat, show (0 * 0 + 0 * 0 + 0 * 0 + (2 : ℝ) * 2) = 4 by norm_num, h4]
  have hnorm : (⟨0, 0, 0, 2⟩ : Quat).Normalize = ⟨0, 0, 0, 1⟩ := by
    rw [Quat.normalize_of_len_ne _ (by rw [hlen]; norm_num), hlen]
    norm_num [Quat.Scale, Quat.mk.injEq]
  have hlen1 : (⟨0, 0, 0, 1⟩ : Quat).Length = 1 := by
    rw [Quat.length_mk_quat, show (0 * 0 + 0 * 0 + 0 * 0 + (1 : ℝ) * 1) = 1 by norm_num,
      Real.sqrt_one]
  have hdot : (⟨0, 0, 0, 1⟩ : Quat).Dot ⟨0, 0, 0, 1⟩ = 1 := by
    norm_num [Quat.Dot]
  have hid : (⟨0, 0, 0, 1⟩ : Quat).Normalize = ⟨0, 0, 0, 1⟩ := by
    rw [Quat.normalize_of_len_ne _ (by rw [hlen1]; norm_num), hlen1]
    norm_num [Quat.Scale, Quat.mk.injEq]
  have hzero : ((⟨0, 0, 0, 1⟩ : Quat).Sub ⟨0, 0, 0, 1⟩).Scale (1 / 2) = ⟨0, 0, 0, 0⟩ := by
    norm_num [Quat.Sub, Quat.Scale, Quat.mk.injEq]
  have haddz : (⟨0, 0, 0, 1⟩ : Quat).Add ⟨0, 0, 0, 0⟩ = ⟨0, 0, 0, 1⟩ := by
    norm_num [Quat.Add, Quat.mk.injEq]
  simp only [Quat.Slerp, hnorm, hdot]
  rw [if_neg (by norm_num : ¬((1 : ℝ) < 0)), if_neg (by norm_num : ¬((1 : ℝ) < 0)),
    if_pos (by norm_num : (1 : ℝ) > 0.9995)]
  rw [hzero, haddz, hid]
  norm_num [Quat.mk.injEq]

/-- Claim C1 (code bug): CreateTerrainMesh(2, 1, 1) returns a mesh whose
normals are all exactly the zero vector, because calculateNormals is
invoked before the index buffer is written and therefore accumulates over
an all-zero index array; yet the returned index buffer holds the two real
triangles (0,2,1) and (1,2,3), and the first of them has a non-zero face
normal, so accumulation over the actual triangles would not give zero
normals. -/
theorem terrain_normals_from_zero_index_buffer :
    (CreateTerrainMesh 2 1 1).Normals = List.replicate 12 (0 : ℝ) ∧
    (CreateTerrainMesh 2 1 1).Indices = [0, 2, 1, 1, 2, 3] ∧
    ((vecAt (CreateTerrainMesh 2 1 1).Vertices 2).Sub
        (vecAt (CreateTerrainMesh 2 1 1).Vertices 0)).Cross
      ((vecAt (CreateTerrainMesh 2 1 1).Vertices 1).Sub
        (vecAt (CreateTerrainMesh 2 1 1).Vertices 0)) ≠ ⟨0, 0, 0⟩ := by
  have hrange2 : List.range 2 = [0, 1] := by simp [List.range_succ]
  have hrange1 : List.range 1 = [0] := by simp [List.range_succ]
  have hverts : (CreateTerrainMesh 2 1 1).Vertices =
      [-1, 0, -1, 1, -(1 / 2 : ℝ), -1, -1, -(1 / 2), 1, 1, -1, 1] := by
    norm_num [CreateTerrainMesh, hrange2]
  refine ⟨?_, ?_, ?_⟩
  · have hnormals : (CreateTerrainMesh 2 1 1).Normals =
        calculateNormals [-1, 0, -1, 1, -(1 / 2 : ℝ), -1, -1, -(1 / 2), 1, 1, -1, 1]
          (List.replicate 6 0) (List.replicate 12 0) := by
      norm_num [CreateTerrainMesh, hrange2]
    rw [hnormals]
    norm_num [calculateNormals, triangleTriples, vecAt, addAt, normalizeChunks,
      Vec3.Sub, Vec3.Cross, Vec3.normalize_zero_vec, List.replicate]
  · norm_num [CreateTerrainMesh, gridIndices, hrange1]
  · rw [hverts]
    norm_num [vecAt, Vec3.Sub, Vec3.Cross, Vec3.mk.injEq]
